import Mathlib

/-!
Verification of the segment-recording controller in `src/main.rs`
(rs-audio-tokenizer): a loop that records fixed-duration audio segments
into two alternating WAV files, writes samples from the device callback
through a `try_lock`ed shared `Option<WavWriter>`, finalizes each segment,
and uploads it from a detached thread that appends the response to a
mutex-guarded log file.

The Rust code is shallowly embedded: machine integers become `Nat`/`Int`
(no arithmetic here overflows its Rust type), the `Mutex<Option<WavWriter>>`
becomes an explicit `Option` plus a lock-acquisition flag, and the two
upload threads racing on the log file become a small interleaving
semantics driven by an explicit schedule.
-/

/-- Embeds `cpal::SampleFormat`: the device-native sample encodings. -/
inductive SampleFormat where
  | i8 | i16 | i32 | i64
  | u8 | u16 | u32 | u64
  | f32 | f64
deriving DecidableEq, Repr

/-- Embeds `cpal::SampleFormat::sample_size`: size in bytes of one sample. -/
def SampleFormat.sample_size : SampleFormat → Nat
  | .i8 => 1 | .i16 => 2 | .i32 => 4 | .i64 => 8
  | .u8 => 1 | .u16 => 2 | .u32 => 4 | .u64 => 8
  | .f32 => 4 | .f64 => 8

/-- Embeds `cpal::SampleFormat::is_float`: true exactly for `F32` and `F64`. -/
def SampleFormat.is_float : SampleFormat → Bool
  | .f32 => true
  | .f64 => true
  | _ => false

/-- Embeds `cpal::SupportedStreamConfig` as used by the program: channel count
(`u16`), sample rate in Hz (`u32` inside `SampleRate`), buffer-size range
and sample format. -/
structure SupportedStreamConfig where
  channels : Nat
  sample_rate : Nat
  buffer_min : Nat
  buffer_max : Nat
  sample_format : SampleFormat
deriving DecidableEq, Repr

/-- Embeds `hound::SampleFormat`: the WAV header's sample-encoding flag. -/
inductive HoundSampleFormat where
  | float
  | int
deriving DecidableEq, Repr

/-- Embeds `hound::WavSpec`: the WAV header fields written at file creation. -/
structure WavSpec where
  channels : Nat
  sample_rate : Nat
  bits_per_sample : Nat
  sample_format : HoundSampleFormat
deriving DecidableEq, Repr

/-- Embeds `fn sample_format` from `src/main.rs`: maps a cpal format to the hound
header flag — `Float` when `format.is_float()`, else `Int`. -/
def sample_format (format : SampleFormat) : HoundSampleFormat :=
  if format.is_float then HoundSampleFormat.float else HoundSampleFormat.int

/-- Embeds `fn wav_spec_from_config` from `src/main.rs`: builds the WAV header from
the stream config. The `as _` casts are lossless: channels is already
`u16`, sample rate `u32`, and `sample_size * 8 ≤ 64` fits `u16`. -/
def wav_spec_from_config (config : SupportedStreamConfig) : WavSpec :=
  { channels := config.channels
    sample_rate := config.sample_rate
    bits_per_sample := config.sample_format.sample_size * 8
    sample_format := sample_format config.sample_format }

/-! ## The sample sink: `write_input_data::<i16, i16>`

The shared handle is `Arc<Mutex<Option<WavWriter<..>>>>`. We model the
`WavWriter` as the list of samples written so far; the `Mutex` is modelled
by a boolean saying whether `try_lock` succeeds at this invocation (it
fails exactly when the controller holds the lock for finalize). At the
instantiation used by the program, `T = U = i16`, so
`U::from_sample(sample)` is the identity conversion. -/

/-- State of an open `hound::WavWriter`: the samples written so far. -/
structure WavWriterState where
  samples : List Int
deriving DecidableEq, Repr

/-- Embeds `U::from_sample::<T>` at `T = U = i16`: the identity conversion. -/
def from_sample_i16 (sample : Int) : Int := sample

/-- Embeds `fn write_input_data::<i16, i16>` from `src/main.rs`.

`acquired` is the outcome of `writer.try_lock()`: on contention (`Err`)
the function returns at once — non-blocking — leaving the writer
untouched. With the lock held, a `None` writer (taken by finalize) makes
the call a no-op; a `Some` writer gets every converted sample appended
(`write_sample(..).ok()` discards per-sample errors).

The second component is the list of diagnostics the call emits: the
source reports nothing on any path, so it is always empty. -/
def write_input_data (input : List Int) (acquired : Bool)
    (writer : Option WavWriterState) : Option WavWriterState × List String :=
  if acquired then
    match writer with
    | some w => (some { samples := w.samples ++ input.map from_sample_i16 }, [])
    | none => (none, [])
  else
    (writer, [])

/-! ## The controller loop: slot alternation (`sem`, `paths`, `i`) -/

/-- Embeds `path_0` from `main`: the first slot's output path. -/
def path_0 : String := "/tmp/recorded_0.wav"

/-- Embeds `path_1` from `main`: the second slot's output path. -/
def path_1 : String := "/tmp/recorded_1.wav"

/-- Embeds `paths` from `main`: the two alternating output paths, rebuilt each
iteration from the same two strings. -/
def paths : List String := [path_0, path_1]

/-- The value of the `sem` flag at the start of loop iteration `k`:
initialized `false` before the loop, negated once per iteration. -/
def sem : Nat → Bool
  | 0 => false
  | k + 1 => !sem k

/-- Embeds `i` from `main` at iteration `k`: `if sem { 1 } else { 0 }`, read before
`sem` is toggled. -/
def slotIndex (k : Nat) : Nat :=
  if sem k then 1 else 0

/-- The output path the controller writes during iteration `k`:
`&paths[i]`. -/
def pathWritten (k : Nat) : String :=
  paths.getD (slotIndex k) ""

/-- Embeds `BUFFERTIME` from `src/main.rs`: seconds of recording per segment. -/
def BUFFERTIME : Nat := 2

/-- The `SupportedStreamConfig::new(2, SampleRate(16000), Range{0, 8192},
I16)` constructed inside the loop at iteration `k`. It is built from
literal constants, so it does not depend on `k` or on any runtime
input. -/
def configAt (_k : Nat) : SupportedStreamConfig :=
  { channels := 2
    sample_rate := 16000
    buffer_min := 0
    buffer_max := 8192
    sample_format := SampleFormat.i16 }

/-! ## Claims C4, C2, C5 -/

/-- C4: For every StreamConfig passed to `wav_spec_from_config`, the
produced WAV spec's fields exactly match the config: channels, sample
rate, bit depth = sample size in bytes × 8, and the format flag is Float
iff the config's format is floating-point (else Int). -/
theorem wav_spec_matches_config (config : SupportedStreamConfig) :
    (wav_spec_from_config config).channels = config.channels ∧
    (wav_spec_from_config config).sample_rate = config.sample_rate ∧
    (wav_spec_from_config config).bits_per_sample
      = config.sample_format.sample_size * 8 ∧
    ((wav_spec_from_config config).sample_format = HoundSampleFormat.float
      ↔ config.sample_format.is_float = true) := by
  refine ⟨rfl, rfl, rfl, ?_⟩
  simp only [wav_spec_from_config, sample_format]
  cases h : config.sample_format.is_float <;> simp

/-- C2: When `write_input_data` runs while the sink's lock is held by a
concurrent finalize (`try_lock` fails), the call returns without writing
any sample: the shared writer state is returned unmodified and no
diagnostic is emitted. (It is non-blocking by construction: the
contended branch returns immediately instead of waiting.) -/
theorem write_dropped_on_contention (input : List Int)
    (writer : Option WavWriterState) :
    write_input_data input false writer = (writer, []) := by
  simp [write_input_data]

/-- C5: When `write_input_data` acquires the lock but the writer `Option`
is `None` (sink absent, i.e. after finalize took the writer), no sample is
written: the state stays `None` and nothing is reported. -/
theorem write_noop_when_absent (input : List Int) :
    write_input_data input true none = (none, []) := by
  simp [write_input_data]

/-! ## Claims C1, C9 -/

/-- C1: Across consecutive rotations the selected slot indices are
0,1,0,1,… — the first iteration selects index 0 and each iteration
selects the toggle of the previous index — and the output path written at
rotation `k+2` equals the path written at rotation `k`. -/
theorem slot_alternation :
    slotIndex 0 = 0 ∧
    (∀ k, slotIndex (k + 1) = 1 - slotIndex k) ∧
    (∀ k, pathWritten (k + 2) = pathWritten k) := by
  refine ⟨rfl, ?_, ?_⟩
  · intro k
    by_cases h : sem k = true <;>
      simp [slotIndex, sem, h]
  · intro k
    by_cases h : sem k = true <;>
      simp [pathWritten, slotIndex, sem, h]

/-- C9: The StreamConfig used for recording is the same on every loop
iteration (fixed for the process lifetime), is built from the constants
channel count 2, sample rate 16000 Hz, format I16, and satisfies
`channel_count ≥ 1` and `sample_rate > 0`. -/
theorem config_fixed_and_valid :
    (∀ k, configAt k = configAt 0) ∧
    (∀ k, (configAt k).channels = 2 ∧
          (configAt k).sample_rate = 16000 ∧
          (configAt k).sample_format = SampleFormat.i16 ∧
          1 ≤ (configAt k).channels ∧
          0 < (configAt k).sample_rate) := by
  exact ⟨fun _ => rfl, fun _ => ⟨rfl, rfl, rfl, by norm_num [configAt], by norm_num [configAt]⟩⟩

/-! ## Controller iteration: event order and finalize semantics

One loop-body iteration of `main` performs, in program order: create the
WAV writer and install it into the shared `Option` (`Some`), build the
input stream, `play()`, sleep `BUFFERTIME` seconds, `drop(stream)` (stops
hardware callbacks), then
`writer.lock().unwrap().take().unwrap().finalize()` — a blocking lock
acquisition, `take()` leaving the shared `Option` at `None`, `unwrap()`
(panics iff the taken value was `None`), `finalize()` flushing and
closing the file — and finally `thread::spawn` of the upload. The spawned
`JoinHandle` is bound to `handle` and never joined. -/

/-- One controller-thread operation inside the loop body. `joinDispatch`
is the operation the controller never performs. -/
inductive CtrlEvent where
  | createWriter
  | playStream
  | sleep (secs : Nat)
  | dropStream
  | lockBlocking
  | takeWriter
  | finalizeFile
  | spawnDispatch
  | joinDispatch
deriving DecidableEq, Repr

/-- The loop body of `main` as its sequence of controller-thread
operations, in program order. -/
def iterationTrace : List CtrlEvent :=
  [CtrlEvent.createWriter, CtrlEvent.playStream, CtrlEvent.sleep BUFFERTIME,
   CtrlEvent.dropStream, CtrlEvent.lockBlocking, CtrlEvent.takeWriter,
   CtrlEvent.finalizeFile, CtrlEvent.spawnDispatch]

/-- Embeds `writer.lock().unwrap().take().unwrap().finalize()`: under the
blocking lock, `take()` moves the writer out (shared `Option` becomes
`None` afterwards); `unwrap()` panics — modelled as `.error` — iff the
`Option` held `None`; `finalize()` flushes and closes the file, yielding
its final sample contents. Returns (result of the unwrap-and-finalize,
shared `Option` after the statement). -/
def finalizeSink (writer : Option WavWriterState) :
    Except String (List Int) × Option WavWriterState :=
  match writer with
  | some w => (Except.ok w.samples, none)
  | none => (Except.error "called `Option::unwrap()` on a `None` value", none)

/-- The device-callback thread between `createWriter` and `dropStream`:
an arbitrary finite sequence of buffer callbacks, each invoking
`write_input_data` with its buffer and the outcome of its `try_lock`. -/
def applyCallbacks : List (List Int × Bool) → Option WavWriterState →
    Option WavWriterState
  | [], writer => writer
  | (input, acquired) :: rest, writer =>
      applyCallbacks rest (write_input_data input acquired writer).1

/-- Lemma: `write_input_data` never turns a `Some` writer into `None`:
only finalize's `take()` empties the shared `Option`. -/
theorem write_input_data_preserves_some (input : List Int) (acquired : Bool)
    (w : WavWriterState) :
    ∃ w', (write_input_data input acquired (some w)).1 = some w' := by
  by_cases h : acquired = true <;> simp [write_input_data, h]

/-- Callbacks starting from an installed writer always leave the shared
`Option` occupied. -/
theorem applyCallbacks_some (cbs : List (List Int × Bool)) (w : WavWriterState) :
    ∃ w', applyCallbacks cbs (some w) = some w' := by
  induction cbs generalizing w with
  | nil => exact ⟨w, rfl⟩
  | cons cb rest ih =>
      obtain ⟨w', hw'⟩ := write_input_data_preserves_some cb.1 cb.2 w
      obtain ⟨w'', hw''⟩ := ih w'
      exact ⟨w'', by simpa [applyCallbacks, hw'] using hw''⟩

/-! ## Claims C6, C10 -/

/-- C6: In the Recording→Finalizing transition the controller first
sleeps the fixed duration, then stops (drops) the capture stream, and
only then finalizes the sink; finalize acquires the lock blockingly,
takes the writer out of the shared `Option` — leaving the sink absent
(`None`) — and flushes and closes the file (yielding the recorded
samples). -/
theorem finalize_ordering :
    iterationTrace.indexOf (CtrlEvent.sleep BUFFERTIME)
      < iterationTrace.indexOf CtrlEvent.dropStream ∧
    iterationTrace.indexOf CtrlEvent.dropStream
      < iterationTrace.indexOf CtrlEvent.lockBlocking ∧
    iterationTrace.indexOf CtrlEvent.lockBlocking
      < iterationTrace.indexOf CtrlEvent.takeWriter ∧
    iterationTrace.indexOf CtrlEvent.takeWriter
      < iterationTrace.indexOf CtrlEvent.finalizeFile ∧
    (∀ w : WavWriterState,
      finalizeSink (some w) = (Except.ok w.samples, none)) := by
  refine ⟨by decide, by decide, by decide, by decide, fun w => rfl⟩

/-- C10: At the finalize step of every iteration the shared writer
`Option` is `Some`, so `take().unwrap()` never panics: a fresh writer is
installed at the start of the iteration, and the intervening callbacks
(`write_input_data`, which never empties the `Option`) are the only other
operations that touch it. -/
theorem finalize_unwrap_never_panics (cbs : List (List Int × Bool))
    (fresh : WavWriterState) :
    ∃ samples, (finalizeSink (applyCallbacks cbs (some fresh))).1
      = Except.ok samples := by
  obtain ⟨w', hw'⟩ := applyCallbacks_some cbs fresh
  exact ⟨w'.samples, by simp [hw', finalizeSink]⟩

/-! ## Process setup and per-iteration fallible operations (claim C7)

`main` returns `Result<(), anyhow::Error>`. Device lookup uses
`.expect("failed to find input device")` and log creation
`.expect("Unable to create file")` — both panic, printing the message and
aborting with non-zero status. `WavWriter::create(..)?`,
`build_input_stream(..)?` and `stream.play()?` propagate their errors out
of `main`, which prints `Error: <display>` and exits with status 1. All
five paths print a diagnostic and terminate non-zero; none retries. -/

/-- Outcome of running `main` past its fallible operations: either the
process aborted with a diagnostic (panic message or propagated error),
or setup succeeded and the loop keeps running. -/
inductive ProcOutcome where
  | fatal (diagnostic : String)
  | running
deriving DecidableEq, Repr

/-- Which fallible operations succeed in a given run: device lookup, log
file creation, per-iteration segment (WAV) file creation, input stream
construction, and `play()`. -/
structure FallibleEnv where
  deviceFound : Bool
  logCreateOk : Bool
  wavCreateOk : Bool
  buildStreamOk : Bool
  playOk : Bool
deriving DecidableEq, Repr

/-- Embeds `main` up to and including the first iteration's fallible operations,
in program order: device lookup (`expect`), log creation (`expect`), then
inside the loop WAV-writer creation (`?`), stream construction (`?`),
`play()` (`?`). The first failure aborts; there is no retry branch and no
degraded continuation. -/
def mainFallibleOps (e : FallibleEnv) : ProcOutcome :=
  if !e.deviceFound then ProcOutcome.fatal "failed to find input device"
  else if !e.logCreateOk then ProcOutcome.fatal "Unable to create file"
  else if !e.wavCreateOk then ProcOutcome.fatal "Error: failed to create segment wav file"
  else if !e.buildStreamOk then ProcOutcome.fatal "Error: failed to build input stream"
  else if !e.playOk then ProcOutcome.fatal "Error: failed to play stream"
  else ProcOutcome.running

/-- Exit status of the process for a given outcome: a panic aborts with a
non-zero code (101), a propagated `Err` from `main` exits 1 — both
non-zero; only normal completion would exit 0 (the loop never returns). -/
def exitStatusNonZero : ProcOutcome → Bool
  | ProcOutcome.fatal _ => true
  | ProcOutcome.running => false

/-! ## The upload dispatcher (claims C3, C8)

After finalize, `main` spawns a detached thread that runs
`curl --data-binary @<path> http://localhost:8009/transcribe`, prints the
captured stdout, locks the shared log file and appends stdout followed by
one `'\n'` byte. The `JoinHandle` is dropped unjoined. `curl`'s stdout is
the HTTP response body whether or not the response was a success and
whether or not curl exited 0; `Output::status` is never inspected. -/

/-- Result of `Command::output()` for the curl invocation: `spawnOk` is
whether the `curl` binary could be executed at all (`expect` panics the
dispatcher thread otherwise); `stdout` is the captured response body
bytes; `exitSuccess` is curl's exit status — non-zero on transport errors
or (`--fail`-less) left true even for HTTP error bodies; the program
never reads it. -/
structure CurlOutcome where
  spawnOk : Bool
  stdout : List Nat
  exitSuccess : Bool
deriving DecidableEq, Repr

/-- The newline byte `'\n'` appended after each log entry. -/
def newlineByte : Nat := 10

/-- One dispatcher thread's effect on the log, run to completion in
isolation: `none` means the thread panicked before logging (curl could
not be spawned — the panic stays on the detached thread); otherwise the
new log contents: previous bytes, then the whole response body, then one
newline byte. The curl exit status is not consulted on any path. -/
def uploadDispatch (o : CurlOutcome) (log : List Nat) : Option (List Nat) :=
  if o.spawnOk then some (log ++ o.stdout ++ [newlineByte]) else none

/-- The controller's state carried to the next iteration is just `sem`;
the spawned dispatch's outcome is passed here only to show it is ignored:
the `JoinHandle` is dropped, so nothing of the dispatcher flows back. -/
def controllerNextSem (semVal : Bool) (_dispatchOutcome : CurlOutcome) : Bool :=
  !semVal

/-! ## Claims C7, C8 -/

/-- C7: each of device-not-found, log-creation failure, segment-file
creation failure, stream construction failure and `play()` failure aborts
the process at that point with a diagnostic and a non-zero exit status —
no retry, no degraded mode (the outcome is `fatal`, never `running`). -/
theorem fatal_failures_abort (e : FallibleEnv) :
    (e.deviceFound = false →
      mainFallibleOps e = ProcOutcome.fatal "failed to find input device") ∧
    (e.deviceFound = true → e.logCreateOk = false →
      mainFallibleOps e = ProcOutcome.fatal "Unable to create file") ∧
    (e.deviceFound = true → e.logCreateOk = true → e.wavCreateOk = false →
      mainFallibleOps e
        = ProcOutcome.fatal "Error: failed to create segment wav file") ∧
    (e.deviceFound = true → e.logCreateOk = true → e.wavCreateOk = true →
      e.buildStreamOk = false →
      mainFallibleOps e
        = ProcOutcome.fatal "Error: failed to build input stream") ∧
    (e.deviceFound = true → e.logCreateOk = true → e.wavCreateOk = true →
      e.buildStreamOk = true → e.playOk = false →
      mainFallibleOps e = ProcOutcome.fatal "Error: failed to play stream") ∧
    (∀ d, mainFallibleOps e = ProcOutcome.fatal d →
      exitStatusNonZero (mainFallibleOps e) = true ∧ d ≠ "") := by
  refine ⟨?_, ?_, ?_, ?_, ?_, ?_⟩
  · intro h; simp [mainFallibleOps, h]
  · intro h1 h2; simp [mainFallibleOps, h1, h2]
  · intro h1 h2 h3; simp [mainFallibleOps, h1, h2, h3]
  · intro h1 h2 h3 h4; simp [mainFallibleOps, h1, h2, h3, h4]
  · intro h1 h2 h3 h4 h5; simp [mainFallibleOps, h1, h2, h3, h4, h5]
  · intro d hd
    constructor
    · rw [hd]; rfl
    · intro hempty
      subst hempty
      revert hd
      simp only [mainFallibleOps]
      split_ifs <;> simp

/-- Closed witness for C7: with every operation failing, the process
aborts at the first one (device lookup) with its diagnostic. -/
theorem fatal_failures_abort_witness :
    mainFallibleOps ⟨false, false, false, false, false⟩
      = ProcOutcome.fatal "failed to find input device" :=
  (fatal_failures_abort ⟨false, false, false, false, false⟩).1 rfl

/-- C8: the upload runs on a detached thread the controller never joins —
the loop body's trace contains `spawnDispatch` after `finalizeFile` and
no `joinDispatch` at all, and the controller's next-iteration state does
not depend on the dispatch outcome. An upload failure (curl transport
error or non-success HTTP response, i.e. any `spawnOk` outcome) neither
crashes the process nor blocks the controller: the dispatcher completes
and its entire effect is the response text plus newline in the log. -/
theorem upload_detached_and_nonfatal :
    (CtrlEvent.spawnDispatch ∈ iterationTrace) ∧
    (CtrlEvent.joinDispatch ∉ iterationTrace) ∧
    iterationTrace.indexOf CtrlEvent.finalizeFile
      < iterationTrace.indexOf CtrlEvent.spawnDispatch ∧
    (∀ s o o', controllerNextSem s o = controllerNextSem s o') ∧
    (∀ (o : CurlOutcome) (log : List Nat), o.spawnOk = true →
      uploadDispatch o log = some (log ++ o.stdout ++ [newlineByte])) := by
  refine ⟨by decide, by decide, by decide, fun s o o' => rfl, ?_⟩
  intro o log h
  simp [uploadDispatch, h]

/-- Closed witness for C8: a curl run that reached the endpoint and got a
failure body appends exactly that body plus one newline to an empty
log. -/
theorem upload_detached_and_nonfatal_witness :
    uploadDispatch ⟨true, [101, 114, 114], false⟩ []
      = some ([101, 114, 114] ++ [newlineByte]) :=
  upload_detached_and_nonfatal.2.2.2.2 ⟨true, [101, 114, 114], false⟩ [] rfl

/-! ## Two concurrent dispatchers on the shared log (claim C3)

Each dispatcher thread executes, in program order:
`file_clone.lock().unwrap()` (acquire the gate), `file.write(&stdout)`
(append the whole response body), `file.write("\n")` (append one newline
byte), then drop the guard (release). The guard is held across both
writes. We model two such threads with response bodies `b0` and `b1`
racing on one log: a state holds each thread's program counter
(0 = before acquire, 1 = acquired, 2 = body written, 3 = newline
written, 4 = released/done), the current lock holder, and the log bytes;
an explicit schedule says which thread the scheduler runs at each step. A
thread scheduled while blocked on the held lock makes no progress. -/

/-- Shared state of the two dispatcher threads and the log file. Thread
ids are `false` (first dispatcher) and `true` (second). -/
structure DState where
  holder : Option Bool
  pc0 : Nat
  pc1 : Nat
  log : List Nat
deriving DecidableEq, Repr

/-- Program counter of dispatcher thread `t`. -/
def pcOf (s : DState) (t : Bool) : Nat :=
  if t then s.pc1 else s.pc0

/-- One scheduler step giving the CPU to thread `t`: the thread runs its
next instruction — acquire (succeeds only when the gate is free), write
the whole body, write the newline byte, release — or makes no progress
when blocked on the held gate or already done. -/
def dstep (b0 b1 : List Nat) (t : Bool) (s : DState) : DState :=
  if pcOf s t = 0 then
    (if s.holder = none then
      (if t then { s with pc1 := 1, holder := some t }
       else { s with pc0 := 1, holder := some t })
     else s)
  else if pcOf s t = 1 then
    (if t then { s with pc1 := 2, log := s.log ++ b1 }
     else { s with pc0 := 2, log := s.log ++ b0 })
  else if pcOf s t = 2 then
    (if t then { s with pc1 := 3, log := s.log ++ [newlineByte] }
     else { s with pc0 := 3, log := s.log ++ [newlineByte] })
  else if pcOf s t = 3 then
    (if t then { s with pc1 := 4, holder := none }
     else { s with pc0 := 4, holder := none })
  else s

/-- Run a whole schedule (the sequence of scheduler choices). -/
def drun (b0 b1 : List Nat) : List Bool → DState → DState
  | [], s => s
  | t :: ts, s => drun b0 b1 ts (dstep b0 b1 t s)

/-- Initial state: gate free, both threads before their acquire, log
empty (or: `log` is the suffix both threads append after any earlier
contents). -/
def dinit : DState :=
  { holder := none, pc0 := 0, pc1 := 0, log := [] }

/-- The bytes a thread with body `body` has appended to the log by the
time its program counter is `pc`: nothing before the body write, the body
alone between the two writes, body plus newline afterwards. -/
def entryProg (body : List Nat) (pc : Nat) : List Nat :=
  if pc ≤ 1 then [] else if pc = 2 then body else body ++ [newlineByte]

lemma entryProg_of_le_one {b : List Nat} {pc : Nat} (h : pc ≤ 1) :
    entryProg b pc = [] := by
  simp [entryProg, h]

lemma entryProg_two (b : List Nat) : entryProg b 2 = b := by
  simp [entryProg]

lemma entryProg_of_ge_three {b : List Nat} {pc : Nat} (h : 3 ≤ pc) :
    entryProg b pc = b ++ [newlineByte] := by
  have h1 : ¬ pc ≤ 1 := by omega
  have h2 : pc ≠ 2 := by omega
  simp [entryProg, h1, h2]

/-- The mutual-exclusion invariant of the two dispatchers: the gate is
held by a thread exactly while that thread is between its acquire and its
release; a thread that has written its body but not yet its newline has
its partial entry at the very end of the log; and the log is always one
thread's contribution followed by the other's. -/
def DInv (b0 b1 : List Nat) (s : DState) : Prop :=
  (s.holder = some false ↔ (1 ≤ s.pc0 ∧ s.pc0 ≤ 3)) ∧
  (s.holder = some true ↔ (1 ≤ s.pc1 ∧ s.pc1 ≤ 3)) ∧
  (s.pc0 = 2 → s.log = entryProg b1 s.pc1 ++ entryProg b0 s.pc0) ∧
  (s.pc1 = 2 → s.log = entryProg b0 s.pc0 ++ entryProg b1 s.pc1) ∧
  (s.log = entryProg b0 s.pc0 ++ entryProg b1 s.pc1 ∨
   s.log = entryProg b1 s.pc1 ++ entryProg b0 s.pc0)

lemma dstep_inv_false (b0 b1 : List Nat) (s : DState) (h : DInv b0 b1 s) :
    DInv b0 b1 (dstep b0 b1 false s) := by
  obtain ⟨hf, ht, hp0, hp1, hlog⟩ := h
  have hcase : s.pc0 = 0 ∨ s.pc0 = 1 ∨ s.pc0 = 2 ∨ s.pc0 = 3 ∨ 4 ≤ s.pc0 := by
    omega
  rcases hcase with e | e | e | e | e
  · by_cases eh : s.holder = none
    · have hnc1 : ¬(1 ≤ s.pc1 ∧ s.pc1 ≤ 3) := by
        intro hc
        have hth := ht.mpr hc
        rw [eh] at hth
        exact Option.noConfusion hth
      have hstep : dstep b0 b1 false s
          = { s with pc0 := 1, holder := some false } := by
        simp [dstep, pcOf, e, eh]
      rw [hstep]
      have hE0 : entryProg b0 s.pc0 = [] := entryProg_of_le_one (by omega)
      refine ⟨by simp, ?_, by simp, ?_, ?_⟩
      · constructor
        · intro hcontra; exact absurd hcontra (by simp)
        · intro hc; exact absurd hc hnc1
      · intro hc2
        have hc2' : s.pc1 = 2 := hc2
        exact absurd ⟨by omega, by omega⟩ hnc1
      · simpa [entryProg_of_le_one, hE0] using hlog
    · have hstep : dstep b0 b1 false s = s := by
        simp [dstep, pcOf, e, eh]
      rw [hstep]
      exact ⟨hf, ht, hp0, hp1, hlog⟩
  · have e0 : ¬ s.pc0 = 0 := by omega
    have hhold : s.holder = some false := hf.mpr ⟨by omega, by omega⟩
    have hnc1 : ¬(1 ≤ s.pc1 ∧ s.pc1 ≤ 3) := by
      intro hc
      have hth := ht.mpr hc
      rw [hhold] at hth
      simp at hth
    have hstep : dstep b0 b1 false s = { s with pc0 := 2, log := s.log ++ b0 } := by
      simp [dstep, pcOf, e0, e]
    rw [hstep]
    have hE0 : entryProg b0 s.pc0 = [] := entryProg_of_le_one (by omega)
    have hlogE : s.log = entryProg b1 s.pc1 := by
      rcases hlog with hl | hl <;> simpa [hE0] using hl
    refine ⟨by simp [hhold], ?_, ?_, ?_, ?_⟩
    · simp only []
      rw [hhold]
      constructor
      · intro hcontra; exact absurd hcontra (by simp)
      · intro hc; exact absurd hc hnc1
    · intro _; simp [hlogE, entryProg_two]
    · intro hc2
      have hc2' : s.pc1 = 2 := hc2
      exact absurd ⟨by omega, by omega⟩ hnc1
    · right; simp [hlogE, entryProg_two]
  · have e0 : ¬ s.pc0 = 0 := by omega
    have e1 : ¬ s.pc0 = 1 := by omega
    have hhold : s.holder = some false := hf.mpr ⟨by omega, by omega⟩
    have hnc1 : ¬(1 ≤ s.pc1 ∧ s.pc1 ≤ 3) := by
      intro hc
      have hth := ht.mpr hc
      rw [hhold] at hth
      simp at hth
    have hstep : dstep b0 b1 false s
        = { s with pc0 := 3, log := s.log ++ [newlineByte] } := by
      simp [dstep, pcOf, e0, e1, e]
    rw [hstep]
    have hlogE : s.log = entryProg b1 s.pc1 ++ b0 := by
      simpa [e, entryProg_two] using hp0 e
    refine ⟨by simp [hhold], ?_, by simp, ?_, ?_⟩
    · simp only []
      rw [hhold]
      constructor
      · intro hcontra; exact absurd hcontra (by simp)
      · intro hc; exact absurd hc hnc1
    · intro hc2
      have hc2' : s.pc1 = 2 := hc2
      exact absurd ⟨by omega, by omega⟩ hnc1
    · right
      simp [hlogE, entryProg_of_ge_three (by omega : (3:Nat) ≤ 3)]
  · have e0 : ¬ s.pc0 = 0 := by omega
    have e1 : ¬ s.pc0 = 1 := by omega
    have e2 : ¬ s.pc0 = 2 := by omega
    have hhold : s.holder = some false := hf.mpr ⟨by omega, by omega⟩
    have hnc1 : ¬(1 ≤ s.pc1 ∧ s.pc1 ≤ 3) := by
      intro hc
      have hth := ht.mpr hc
      rw [hhold] at hth
      simp at hth
    have hstep : dstep b0 b1 false s = { s with pc0 := 4, holder := none } := by
      simp [dstep, pcOf, e0, e1, e2, e]
    rw [hstep]
    have hE3 : entryProg b0 s.pc0 = b0 ++ [newlineByte] :=
      entryProg_of_ge_three (by omega)
    have hE4 : entryProg b0 (4 : Nat) = b0 ++ [newlineByte] :=
      entryProg_of_ge_three (by omega)
    refine ⟨by simp, ?_, by simp, ?_, ?_⟩
    · constructor
      · intro hcontra; exact absurd hcontra (by simp)
      · intro hc; exact absurd hc hnc1
    · intro hc2
      have hc2' : s.pc1 = 2 := hc2
      exact absurd ⟨by omega, by omega⟩ hnc1
    · simpa [hE3, hE4] using hlog
  · have h4 : ¬ pcOf s false = 0 := by simp [pcOf]; omega
    have h5 : ¬ pcOf s false = 1 := by simp [pcOf]; omega
    have h6 : ¬ pcOf s false = 2 := by simp [pcOf]; omega
    have h7 : ¬ pcOf s false = 3 := by simp [pcOf]; omega
    have hstep : dstep b0 b1 false s = s := by
      simp [dstep, h4, h5, h6, h7]
    rw [hstep]
    exact ⟨hf, ht, hp0, hp1, hlog⟩

lemma dstep_inv_true (b0 b1 : List Nat) (s : DState) (h : DInv b0 b1 s) :
    DInv b0 b1 (dstep b0 b1 true s) := by
  obtain ⟨hf, ht, hp0, hp1, hlog⟩ := h
  have hcase : s.pc1 = 0 ∨ s.pc1 = 1 ∨ s.pc1 = 2 ∨ s.pc1 = 3 ∨ 4 ≤ s.pc1 := by
    omega
  rcases hcase with e | e | e | e | e
  · by_cases eh : s.holder = none
    · have hnc0 : ¬(1 ≤ s.pc0 ∧ s.pc0 ≤ 3) := by
        intro hc
        have hth := hf.mpr hc
        rw [eh] at hth
        exact Option.noConfusion hth
      have hstep : dstep b0 b1 true s
          = { s with pc1 := 1, holder := some true } := by
        simp [dstep, pcOf, e, eh]
      rw [hstep]
      have hE0 : entryProg b1 s.pc1 = [] := entryProg_of_le_one (by omega)
      refine ⟨?_, by simp, ?_, by simp, ?_⟩
      · constructor
        · intro hcontra; exact absurd hcontra (by simp)
        · intro hc; exact absurd hc hnc0
      · intro hc2
        have hc2' : s.pc0 = 2 := hc2
        exact absurd ⟨by omega, by omega⟩ hnc0
      · simpa [entryProg_of_le_one, hE0] using hlog
    · have hstep : dstep b0 b1 true s = s := by
        simp [dstep, pcOf, e, eh]
      rw [hstep]
      exact ⟨hf, ht, hp0, hp1, hlog⟩
  · have e0 : ¬ s.pc1 = 0 := by omega
    have hhold : s.holder = some true := ht.mpr ⟨by omega, by omega⟩
    have hnc0 : ¬(1 ≤ s.pc0 ∧ s.pc0 ≤ 3) := by
      intro hc
      have hth := hf.mpr hc
      rw [hhold] at hth
      simp at hth
    have hstep : dstep b0 b1 true s = { s with pc1 := 2, log := s.log ++ b1 } := by
      simp [dstep, pcOf, e0, e]
    rw [hstep]
    have hE0 : entryProg b1 s.pc1 = [] := entryProg_of_le_one (by omega)
    have hlogE : s.log = entryProg b0 s.pc0 := by
      rcases hlog with hl | hl <;> simpa [hE0] using hl
    refine ⟨?_, by simp [hhold], ?_, ?_, ?_⟩
    · simp only []
      rw [hhold]
      constructor
      · intro hcontra; exact absurd hcontra (by simp)
      · intro hc; exact absurd hc hnc0
    · intro hc2
      have hc2' : s.pc0 = 2 := hc2
      exact absurd ⟨by omega, by omega⟩ hnc0
    · intro _; simp [hlogE, entryProg_two]
    · left; simp [hlogE, entryProg_two]
  · have e0 : ¬ s.pc1 = 0 := by omega
    have e1 : ¬ s.pc1 = 1 := by omega
    have hhold : s.holder = some true := ht.mpr ⟨by omega, by omega⟩
    have hnc0 : ¬(1 ≤ s.pc0 ∧ s.pc0 ≤ 3) := by
      intro hc
      have hth := hf.mpr hc
      rw [hhold] at hth
      simp at hth
    have hstep : dstep b0 b1 true s
        = { s with pc1 := 3, log := s.log ++ [newlineByte] } := by
      simp [dstep, pcOf, e0, e1, e]
    rw [hstep]
    have hlogE : s.log = entryProg b0 s.pc0 ++ b1 := by
      simpa [e, entryProg_two] using hp1 e
    refine ⟨?_, by simp [hhold], ?_, by simp, ?_⟩
    · simp only []
      rw [hhold]
      constructor
      · intro hcontra; exact absurd hcontra (by simp)
      · intro hc; exact absurd hc hnc0
    · intro hc2
      have hc2' : s.pc0 = 2 := hc2
      exact absurd ⟨by omega, by omega⟩ hnc0
    · left
      simp [hlogE, entryProg_of_ge_three (by omega : (3:Nat) ≤ 3)]
  · have e0 : ¬ s.pc1 = 0 := by omega
    have e1 : ¬ s.pc1 = 1 := by omega
    have e2 : ¬ s.pc1 = 2 := by omega
    have hhold : s.holder = some true := ht.mpr ⟨by omega, by omega⟩
    have hnc0 : ¬(1 ≤ s.pc0 ∧ s.pc0 ≤ 3) := by
      intro hc
      have hth := hf.mpr hc
      rw [hhold] at hth
      simp at hth
    have hstep : dstep b0 b1 true s = { s with pc1 := 4, holder := none } := by
      simp [dstep, pcOf, e0, e1, e2, e]
    rw [hstep]
    have hE3 : entryProg b1 s.pc1 = b1 ++ [newlineByte] :=
      entryProg_of_ge_three (by omega)
    have hE4 : entryProg b1 (4 : Nat) = b1 ++ [newlineByte] :=
      entryProg_of_ge_three (by omega)
    refine ⟨?_, by simp, ?_, by simp, ?_⟩
    · constructor
      · intro hcontra; exact absurd hcontra (by simp)
      · intro hc; exact absurd hc hnc0
    · intro hc2
      have hc2' : s.pc0 = 2 := hc2
      exact absurd ⟨by omega, by omega⟩ hnc0
    · simpa [hE3, hE4] using hlog
  · have h4 : ¬ pcOf s true = 0 := by simp [pcOf]; omega
    have h5 : ¬ pcOf s true = 1 := by simp [pcOf]; omega
    have h6 : ¬ pcOf s true = 2 := by simp [pcOf]; omega
    have h7 : ¬ pcOf s true = 3 := by simp [pcOf]; omega
    have hstep : dstep b0 b1 true s = s := by
      simp [dstep, h4, h5, h6, h7]
    rw [hstep]
    exact ⟨hf, ht, hp0, hp1, hlog⟩

lemma dstep_inv (b0 b1 : List Nat) (t : Bool) (s : DState) (h : DInv b0 b1 s) :
    DInv b0 b1 (dstep b0 b1 t s) := by
  cases t
  · exact dstep_inv_false b0 b1 s h
  · exact dstep_inv_true b0 b1 s h

lemma drun_inv (b0 b1 : List Nat) (sched : List Bool) (s : DState)
    (h : DInv b0 b1 s) : DInv b0 b1 (drun b0 b1 sched s) := by
  induction sched generalizing s with
  | nil => exact h
  | cons t ts ih => exact ih _ (dstep_inv b0 b1 t s h)

lemma dinit_inv (b0 b1 : List Nat) : DInv b0 b1 dinit := by
  refine ⟨by simp [dinit], by simp [dinit], by simp [dinit], by simp [dinit], ?_⟩
  simp [dinit, entryProg]

/-- C3: for every pair of response bodies and every schedule under which
both dispatcher invocations run to completion, the final log is one
dispatcher's entire body followed by its single newline byte, then the
other's entire body followed by its single newline byte — the gate held
across each dispatcher's two writes keeps the two parts contiguous, with
no bytes of the other dispatcher between them. -/
theorem log_append_no_interleaving (b0 b1 : List Nat) (sched : List Bool)
    (h0 : (drun b0 b1 sched dinit).pc0 = 4)
    (h1 : (drun b0 b1 sched dinit).pc1 = 4) :
    (drun b0 b1 sched dinit).log
        = b0 ++ [newlineByte] ++ b1 ++ [newlineByte] ∨
    (drun b0 b1 sched dinit).log
        = b1 ++ [newlineByte] ++ b0 ++ [newlineByte] := by
  have hinv := drun_inv b0 b1 sched dinit (dinit_inv b0 b1)
  obtain ⟨-, -, -, -, hlog⟩ := hinv
  rw [h0, h1] at hlog
  have hE0 : entryProg b0 (4 : Nat) = b0 ++ [newlineByte] :=
    entryProg_of_ge_three (by omega)
  have hE1 : entryProg b1 (4 : Nat) = b1 ++ [newlineByte] :=
    entryProg_of_ge_three (by omega)
  rw [hE0, hE1] at hlog
  rcases hlog with hl | hl
  · left; simp [hl]
  · right; simp [hl]

/-- Closed witness for C3: bodies `[104,105]` and `[111,107]`, first
dispatcher scheduled to completion and then the second; both finish and
the log is the two contiguous two-part entries in one of the two
orders. -/
theorem log_append_no_interleaving_witness :
    (drun [104, 105] [111, 107]
        [false, false, false, false, true, true, true, true] dinit).log
      = [104, 105] ++ [newlineByte] ++ [111, 107] ++ [newlineByte] ∨
    (drun [104, 105] [111, 107]
        [false, false, false, false, true, true, true, true] dinit).log
      = [111, 107] ++ [newlineByte] ++ [104, 105] ++ [newlineByte] :=
  log_append_no_interleaving [104, 105] [111, 107]
    [false, false, false, false, true, true, true, true]
    (by decide) (by decide)
